import Mathlib

/-!
Verification of the chatv2 real-time connection and room-broadcast protocol.

The definitions below are a shallow embedding of the WebSocket handlers of
`src/server/index.ts` (class `ChatV2`) and of the client reconnection hook
`useWebSocket` (the variant with the `isClosedRef` teardown guard and the
`ackMessage` pending-acknowledgment queue).  SQL tables are embedded as lists
of records, `Date.now()` timestamps as an explicit `now : Int` argument, and
each handler returns the frames it sends together with the updated state.
-/

namespace ChatV2

/-! ## Data model (from `src/shared.ts` and the SQL schema) -/

/-- A row of the `messages` table.  `acknowledged` is the INTEGER column
(DEFAULT 0) that `handleMessageAck` sets to 1. -/
structure Message where
  id : String
  room_id : String
  user_id : String
  content : String
  content_type : String
  created_at : Int
  source : String
  external_id : Option String
  acknowledged : Nat
deriving Repr, DecidableEq

/-- A row of the `users` table (without the password column). -/
structure User where
  id : String
  username : String
  nickname : Option String
  role : String
  avatar : Option String
  created_at : Int
deriving Repr, DecidableEq

/-- A row of the `room_members` table. -/
structure RoomMember where
  room_id : String
  user_id : String
deriving Repr, DecidableEq

/-- A row of the `sessions` table. -/
structure Session where
  id : String
  user_id : String
  expires_at : Int
deriving Repr, DecidableEq

/-- The durable-object SQL storage, as lists of rows. -/
structure Store where
  messages : List Message
  users : List User
  room_members : List RoomMember
  sessions : List Session
deriving Repr, DecidableEq

/-- `ConnectionAttachment` from `src/shared.ts`: the per-connection state set
by `serializeAttachment`. -/
inductive Attachment
  | user (userId : String) (joinedRooms : List String) (lastPing : Int)
  | bot (botId : String) (subscribedRooms : List String) (lastPing : Int)
deriving Repr, DecidableEq

/-- A live WebSocket connection: its attachment, or `none` while it has not
authenticated (no `serializeAttachment` call has happened yet). -/
structure Conn where
  attach : Option Attachment
deriving Repr, DecidableEq

def Attachment.lastPing : Attachment → Int
  | .user _ _ lp => lp
  | .bot _ _ lp => lp

def Attachment.withLastPing : Attachment → Int → Attachment
  | .user u jr _, t => .user u jr t
  | .bot b sr _, t => .bot b sr t

/-! ## Wire frames -/

/-- Outbound frames the server sends (the union of `WSMessage` and
`BotWSMessage` cases that the handlers emit). -/
inductive OutFrame
  | auth_error (message : String)
  | auth_success (user_id : Option String)
  | pong (timestamp : Int)
  | room_joined (room_id : String)
  | room_left (room_id : String)
  | room_messages (room_id : String) (messages : List Message) (users : List User)
  | sync_response (messages : List Message) (users : List User)
  | new_message (message : Message) (user : User)
  | pluginMessage (room_id : String) (user_id : String) (content : String) (timestamp : Int)
  | user_online (user_id : String)
  | user_offline (user_id : String)
  | message_sent (message_id : String) (external_id : Option String)
  | error (message : String)
deriving Repr, DecidableEq

/-- Inbound frames, one constructor per `case` of the `onMessage` switch.
The `auth` case is split by the `"api_key" in parsed` test of the dispatcher. -/
inductive InFrame
  | authUser (session_id : String)
  | authBot (api_key : String)
  | ping (timestamp : Int)
  | heartbeat
  | join_room (room_id : String)
  | leave_room (room_id : String)
  | sync_request (last_message_id : Option String)
  | message_ack (message_id : String) (status : String)
  | subscribe (room_id : String)
  | unsubscribe (room_id : String)
  | send_message (room_id : String) (content : String) (external_id : Option String)
  | pluginInbound (room_id : String) (content : String)
  | unknown
deriving Repr, DecidableEq

/-- An invocation of one of the two broadcast helpers
(`broadcastToRoom` / `broadcastUserStatus`) recorded by a handler. -/
inductive BroadcastCall
  | toRoom (roomId : String) (msg : OutFrame)
  | userStatus (userId : String) (status : String)
deriving Repr, DecidableEq

/-- The observable result of running one handler: the (possibly updated)
connection and store, the frames sent back to the sender, the broadcast
helper invocations, and whether the handler closed the connection. -/
structure HandlerOutput where
  conn : Conn
  store : Store
  replies : List OutFrame
  broadcasts : List BroadcastCall
  closeConn : Bool
deriving Repr, DecidableEq

/-! ## Liveness monitor (`startHeartbeatCheck`, `handlePing`, `handleHeartbeat`) -/

def HEARTBEAT_INTERVAL : Int := 30000

def HEARTBEAT_TIMEOUT : Int := 60000

/-- Loop body of the `startHeartbeatCheck` sweep: whether the sweep at time
`now` closes connection `c`.  The source closes only when an attachment of
type `"user"` or `"bot"` is present and `now - attachment.lastPing` exceeds
`HEARTBEAT_TIMEOUT`. -/
def sweepCloses (now : Int) (c : Conn) : Bool :=
  match c.attach with
  | some a => decide (now - a.lastPing > HEARTBEAT_TIMEOUT)
  | none => false

/-- `handlePing`: refresh `lastPing` when an attachment exists, reply
`pong` with the server's current time (the incoming timestamp is unused). -/
def handlePing (now : Int) (c : Conn) (st : Store) (_ts : Int) : HandlerOutput :=
  ⟨⟨c.attach.map (·.withLastPing now)⟩, st, [.pong now], [], false⟩

/-- `handleHeartbeat`: refresh `lastPing` when an attachment exists; the
plugin-compatible heartbeat expects no response. -/
def handleHeartbeat (now : Int) (c : Conn) (st : Store) : HandlerOutput :=
  ⟨⟨c.attach.map (·.withLastPing now)⟩, st, [], [], false⟩

/-! ## Authentication (`handleUserAuth`, `handleBotAuth`) -/

/-- `SELECT * FROM sessions WHERE id = sessionId AND expires_at > now`,
taking the first row. -/
def lookupValidSession (st : Store) (now : Int) (sessionId : String) : Option Session :=
  (st.sessions.filter (fun s => s.id = sessionId && s.expires_at > now)).head?

def handleUserAuth (now : Int) (c : Conn) (st : Store) (sessionId : String) : HandlerOutput :=
  match lookupValidSession st now sessionId with
  | none => ⟨c, st, [.auth_error "Invalid session"], [], false⟩
  | some s =>
      ⟨⟨some (.user s.user_id [] now)⟩, st,
        [.auth_success (some s.user_id)], [.userStatus s.user_id "online"], false⟩

def handleBotAuth (envKey : Option String) (now : Int) (c : Conn) (st : Store)
    (apiKey : String) : HandlerOutput :=
  let validApiKey := envKey.getD "default-bot-api-key"
  if apiKey ≠ validApiKey then
    ⟨c, st, [.auth_error "Invalid API key"], [], true⟩
  else
    ⟨⟨some (.bot "bot" [] now)⟩, st, [.auth_success none], [], false⟩

/-! ## Store queries shared by several handlers -/

/-- `SELECT * FROM room_members WHERE room_id = roomId AND user_id = userId`,
tested for non-emptiness. -/
def isMemberOf (st : Store) (roomId userId : String) : Bool :=
  st.room_members.any (fun rm => rm.room_id = roomId && rm.user_id = userId)

/-- `SELECT room_id FROM room_members WHERE user_id = userId`. -/
def roomsOfUser (st : Store) (userId : String) : List String :=
  (st.room_members.filter (fun rm => rm.user_id = userId)).map (·.room_id)

/-- `SELECT ... FROM messages WHERE id = mid`, taking the first row. -/
def lookupMessage (st : Store) (mid : String) : Option Message :=
  (st.messages.filter (fun m => m.id = mid)).head?

/-- `SELECT ... FROM users WHERE id = uid`, taking the first row. -/
def lookupUser (st : Store) (uid : String) : Option User :=
  (st.users.filter (fun u => u.id = uid)).head?

/-- The static record used for the reserved `"bot"` author id; it is built
inline by the handlers, never read from the `users` table. -/
def botUser (now : Int) : User :=
  ⟨"bot", "AI助手", none, "user", some "🤖", now⟩

/-- The `[...new Set(xs)]` idiom: deduplicate keeping first occurrences. -/
def jsSetDedupAux (seen : List String) : List String → List String
  | [] => []
  | x :: xs => if x ∈ seen then jsSetDedupAux seen xs else x :: jsSetDedupAux (x :: seen) xs

def jsSetDedup (xs : List String) : List String := jsSetDedupAux [] xs

/-- The author-resolution loop shared by `handleJoinRoom`,
`handleSyncRequest` and `handleGetRoomMessages`: `"bot"` maps to the static
record, other ids are looked up and skipped when absent. -/
def resolveUsers (st : Store) (now : Int) (userIds : List String) : List User :=
  userIds.flatMap (fun uid => if uid = "bot" then [botUser now] else (lookupUser st uid).toList)

/-! ## `ORDER BY created_at` (insertion sort on a key) -/

def insertByKey (key : Message → Int) (m : Message) : List Message → List Message
  | [] => [m]
  | x :: xs => if key m ≤ key x then m :: x :: xs else x :: insertByKey key m xs

def sortByKey (key : Message → Int) : List Message → List Message
  | [] => []
  | x :: xs => insertByKey key x (sortByKey key xs)

/-- `ORDER BY created_at ASC`. -/
def sqlSortAsc (l : List Message) : List Message := sortByKey (·.created_at) l

/-- `ORDER BY created_at DESC`. -/
def sqlSortDesc (l : List Message) : List Message := sortByKey (fun m => -m.created_at) l

/-! ## `handleJoinRoom` / `handleLeaveRoom` -/

/-- `SELECT * FROM messages WHERE room_id = roomId ORDER BY created_at DESC
LIMIT 50`. -/
def recentMessages (st : Store) (roomId : String) : List Message :=
  (sqlSortDesc (st.messages.filter (fun m => m.room_id = roomId))).take 50

def handleJoinRoom (now : Int) (c : Conn) (st : Store) (roomId : String) : HandlerOutput :=
  match c.attach with
  | some (.user userId jr lp) =>
      if isMemberOf st roomId userId then
        let jr2 := if roomId ∈ jr then jr else jr ++ [roomId]
        let msgs := recentMessages st roomId
        let users := resolveUsers st now (jsSetDedup (msgs.map (·.user_id)))
        ⟨⟨some (.user userId jr2 lp)⟩, st,
          [.room_joined roomId, .room_messages roomId msgs.reverse users], [], false⟩
      else
        ⟨c, st, [.error "Not a member of this room"], [], false⟩
  | _ => ⟨c, st, [.error "Not authenticated"], [], false⟩

def handleLeaveRoom (c : Conn) (st : Store) (roomId : String) : HandlerOutput :=
  match c.attach with
  | some (.user userId jr lp) =>
      ⟨⟨some (.user userId (jr.filter (· ≠ roomId)) lp)⟩, st, [.room_left roomId], [], false⟩
  | _ => ⟨c, st, [.room_left roomId], [], false⟩

/-! ## `handleSyncRequest` -/

/-- The `created_at` cutoff derived from `last_message_id`: present only when
the id is truthy (JavaScript: the empty string is falsy) and resolves to a
stored message. -/
def syncCutoff (st : Store) (lastMessageId : Option String) : Option Int :=
  match lastMessageId with
  | none => none
  | some mid => if mid = "" then none else (lookupMessage st mid).map (·.created_at)

/-- The WHERE clause of the sync query: messages of the identity's rooms,
restricted by the cutoff when one resolved. -/
def syncFilter (st : Store) (userId : String) (lastMessageId : Option String) : List Message :=
  match syncCutoff st lastMessageId with
  | some t => st.messages.filter (fun m => decide (m.room_id ∈ roomsOfUser st userId) && decide (t < m.created_at))
  | none => st.messages.filter (fun m => decide (m.room_id ∈ roomsOfUser st userId))

/-- The full sync query: WHERE, then `ORDER BY created_at ASC LIMIT 100`. -/
def syncQuery (st : Store) (userId : String) (lastMessageId : Option String) : List Message :=
  (sqlSortAsc (syncFilter st userId lastMessageId)).take 100

def handleSyncRequest (now : Int) (c : Conn) (st : Store)
    (lastMessageId : Option String) : HandlerOutput :=
  match c.attach with
  | some (.user userId _ _) =>
      let msgs := syncQuery st userId lastMessageId
      let users := resolveUsers st now (jsSetDedup (msgs.map (·.user_id)))
      ⟨c, st, [.sync_response msgs users], [], false⟩
  | _ => ⟨c, st, [], [], false⟩

/-! ## `handleMessageAck` -/

/-- `UPDATE messages SET acknowledged = 1 WHERE id = messageId`; no reply,
no broadcast, connection untouched.  The connection and the status argument
appear in the source signature but are never read. -/
def handleMessageAck (c : Conn) (st : Store) (messageId : String) (_status : String) : HandlerOutput :=
  ⟨c, { st with messages :=
      st.messages.map (fun m => if m.id = messageId then { m with acknowledged := 1 } else m) },
    [], [], false⟩

/-! ## Bot handlers -/

def handleBotSubscribe (c : Conn) (st : Store) (roomId : String) : HandlerOutput :=
  match c.attach with
  | some (.bot bid sr lp) =>
      let sr2 := if roomId ∈ sr then sr else sr ++ [roomId]
      ⟨⟨some (.bot bid sr2 lp)⟩, st, [], [], false⟩
  | _ => ⟨c, st, [.error "Not authenticated as bot"], [], false⟩

def handleBotUnsubscribe (c : Conn) (st : Store) (roomId : String) : HandlerOutput :=
  match c.attach with
  | some (.bot bid sr lp) =>
      ⟨⟨some (.bot bid (sr.filter (· ≠ roomId)) lp)⟩, st, [], [], false⟩
  | _ => ⟨c, st, [], [], false⟩

def handleBotSendMessage (now : Int) (genId : String) (c : Conn) (st : Store)
    (roomId content : String) (externalId : Option String) : HandlerOutput :=
  match c.attach with
  | some (.bot _ _ _) =>
      let stored : Message :=
        ⟨genId, roomId, "bot", content, "text", now, "bot", some (externalId.getD ""), 0⟩
      let broadcastMsg : Message :=
        ⟨genId, roomId, "bot", content, "text", now, "bot", externalId, 0⟩
      ⟨c, { st with messages := st.messages ++ [stored] },
        [.message_sent genId externalId],
        [.toRoom roomId (.new_message broadcastMsg (botUser now))], false⟩
  | _ => ⟨c, st, [.error "Not authenticated as bot"], [], false⟩

def handlePluginMessage (now : Int) (genId : String) (c : Conn) (st : Store)
    (roomId content : String) : HandlerOutput :=
  match c.attach with
  | some (.bot bid sr lp) =>
      let sr2 := if roomId ∈ sr then sr else sr ++ [roomId]
      let m : Message := ⟨genId, roomId, "bot", content, "text", now, "bot", none, 0⟩
      ⟨⟨some (.bot bid sr2 lp)⟩, { st with messages := st.messages ++ [m] },
        [.message_sent genId none],
        [.toRoom roomId (.new_message m (botUser now))], false⟩
  | _ => ⟨c, st, [.error "Not authenticated as bot"], [], false⟩

/-! ## Dispatcher (`onMessage` switch) -/

/-- The `switch (parsed.type)` of `onMessage`: routes each inbound frame to
exactly one handler; unknown types fall through with no action. -/
def dispatch (envKey : Option String) (now : Int) (genId : String)
    (c : Conn) (st : Store) : InFrame → HandlerOutput
  | .authUser sid => handleUserAuth now c st sid
  | .authBot key => handleBotAuth envKey now c st key
  | .ping ts => handlePing now c st ts
  | .heartbeat => handleHeartbeat now c st
  | .join_room r => handleJoinRoom now c st r
  | .leave_room r => handleLeaveRoom c st r
  | .sync_request l => handleSyncRequest now c st l
  | .message_ack mid s => handleMessageAck c st mid s
  | .subscribe r => handleBotSubscribe c st r
  | .unsubscribe r => handleBotUnsubscribe c st r
  | .send_message r content eid => handleBotSendMessage now genId c st r content eid
  | .pluginInbound r content => handlePluginMessage now genId c st r content
  | .unknown => ⟨c, st, [], [], false⟩

/-! ## Broadcast router (`broadcastToRoom`) -/

/-- `SELECT user_id FROM room_members WHERE room_id = roomId` (the `memberIds`
set of `broadcastToRoom`). -/
def memberIdsOf (st : Store) (roomId : String) : List String :=
  (st.room_members.filter (fun rm => rm.room_id = roomId)).map (·.user_id)

/-- The loop body of `broadcastToRoom`: the frame (if any) sent to one
connection.  A user connection receives the event verbatim iff its identity is
a persistent member of the room; a bot connection receives the transcoded
plugin envelope iff the event is a `new_message` whose `source` is `"user"`;
an unattached connection is skipped. -/
def deliverTo (memberIds : List String) (roomId : String) (msg : OutFrame) (c : Conn) :
    Option OutFrame :=
  match c.attach with
  | none => none
  | some (.user userId _ _) => if userId ∈ memberIds then some msg else none
  | some (.bot _ _ _) =>
      match msg with
      | .new_message m _ =>
          if m.source = "user" then
            some (.pluginMessage roomId m.user_id m.content m.created_at)
          else none
      | _ => none

/-- `broadcastToRoom`: fan the event out over a snapshot of the live
connections, one delivery decision per connection. -/
def broadcastToRoom (st : Store) (conns : List Conn) (roomId : String) (msg : OutFrame) :
    List (Option OutFrame) :=
  conns.map (deliverTo (memberIdsOf st roomId) roomId msg)

/-! ## Client reconnection controller (`useWebSocket`)

The hook's refs and React state are flattened into one record.  The socket
field abstracts `socketRef.current?.readyState`: `none` stands for "no socket,
or a closed one" (`readyState` neither OPEN nor CONNECTING), and the trace
`sent` collects every frame the hook writes to the socket. -/

inductive ConnState
  | connecting
  | connected
  | disconnected
  | reconnecting
deriving Repr, DecidableEq

inductive SocketStatus
  | connecting
  | opened
deriving Repr, DecidableEq

/-- Frames the hook sends. -/
inductive CFrame
  | auth (session_id : String)
  | ping (timestamp : Int)
  | join_room (room_id : String)
  | leave_room (room_id : String)
  | message_ack (message_id : String) (status : String)
  | sync_request (last_message_id : Option String)
deriving Repr, DecidableEq

/-- One entry of the pending-acknowledgment queue (`pendingAcksRef`). -/
structure PendingAck where
  messageId : String
  status : String
deriving Repr, DecidableEq

structure Client where
  sessionId : String
  connectionState : ConnState
  reconnectAttempt : Nat
  socket : Option SocketStatus
  heartbeatOn : Bool
  reconnectTimer : Option Int
  isConnecting : Bool
  isClosed : Bool
  joinedRooms : List String
  pendingAcks : List PendingAck
  sent : List CFrame
deriving Repr, DecidableEq

def RECONNECT_BASE_DELAY : Int := 3000

def MAX_RECONNECT_DELAY : Int := 30000

/-- `ackMessage`: send immediately over an open socket, otherwise buffer in
the pending-acknowledgment queue. -/
def ackMessage (cl : Client) (messageId status : String) : Client :=
  if cl.socket = some SocketStatus.opened then
    { cl with sent := cl.sent ++ [CFrame.message_ack messageId status] }
  else
    { cl with pendingAcks := cl.pendingAcks ++ [⟨messageId, status⟩] }

/-- The effect watching `connectionState`: once it is `connected` and the
queue is non-empty, copy the queue, clear it, and replay each entry through
`ackMessage`. -/
def flushAcks (cl : Client) : Client :=
  if cl.connectionState = ConnState.connected && !cl.pendingAcks.isEmpty then
    let pending := cl.pendingAcks
    pending.foldl (fun c a => ackMessage c a.messageId a.status)
      { cl with pendingAcks := [] }
  else cl

/-- `connect`: guarded by the session id, the `isConnectingRef` reentrancy
flag and the `isClosedRef` teardown flag; clears any pending reconnect timer,
replaces the socket, and enters `connecting`/`reconnecting` by the attempt
counter.  The attempt counter itself is not touched. -/
def clientConnect (cl : Client) : Client :=
  if cl.sessionId = "" then cl
  else if cl.isConnecting then cl
  else if cl.isClosed then cl
  else
    { cl with
      socket := some .connecting,
      reconnectTimer := none,
      isConnecting := true,
      connectionState := if cl.reconnectAttempt > 0 then .reconnecting else .connecting }

/-- The socket `open` listener: enter `connected`, reset the attempt counter,
send the auth frame, start the heartbeat, replay `join_room` for every
remembered room, then the pending-acknowledgment flush effect fires. -/
def onSocketOpen (cl : Client) : Client :=
  let cl1 := { cl with
    isConnecting := false,
    connectionState := ConnState.connected,
    reconnectAttempt := 0,
    socket := some .opened }
  let cl2 := { cl1 with sent := cl1.sent ++ [CFrame.auth cl.sessionId] }
  let cl3 := { cl2 with heartbeatOn := true }
  let cl4 := { cl3 with sent := cl3.sent ++ cl.joinedRooms.map (fun r => CFrame.join_room r) }
  flushAcks cl4

/-- The socket `close` listener: enter `disconnected`, stop the heartbeat;
then — unless the controller has been torn down — increment the attempt
counter and schedule a reconnect after
`min(RECONNECT_BASE_DELAY * 2 ^ (attempt - 1), MAX_RECONNECT_DELAY)`. -/
def onSocketClose (cl : Client) : Client :=
  let cl1 := { cl with
    isConnecting := false,
    connectionState := ConnState.disconnected,
    heartbeatOn := false,
    socket := none }
  if cl1.isClosed then cl1
  else
    let a := cl1.reconnectAttempt + 1
    { cl1 with
      reconnectAttempt := a,
      reconnectTimer := some (min (RECONNECT_BASE_DELAY * 2 ^ (a - 1)) MAX_RECONNECT_DELAY) }

/-- The cleanup of the mount effect: set the teardown flag, cancel the
heartbeat and any pending reconnect timer, close and drop the socket, clear
the reentrancy flag. -/
def teardown (cl : Client) : Client :=
  { cl with
    isClosed := true,
    heartbeatOn := false,
    reconnectTimer := none,
    socket := none,
    isConnecting := false }

/-- One tick of the heartbeat interval: send a ping when the socket is open. -/
def heartbeatTick (now : Int) (cl : Client) : Client :=
  if cl.heartbeatOn && cl.socket = some SocketStatus.opened then
    { cl with sent := cl.sent ++ [CFrame.ping now] }
  else cl

/-- Events driving the controller. -/
inductive CEvent
  | connectReq
  | socketOpen
  | socketClose
  | teardownEv
  | ackReq (messageId status : String)
  | heartbeat (now : Int)
deriving Repr, DecidableEq

/-- The controller step.  A socket `open` event can only come from a socket
that is still in the CONNECTING state (a closed socket never fires `open`);
the `close` event of an already-discarded socket still runs the close
listener. -/
def cstep (cl : Client) : CEvent → Client
  | .connectReq => clientConnect cl
  | .socketOpen => if cl.socket = some SocketStatus.connecting then onSocketOpen cl else cl
  | .socketClose => onSocketClose cl
  | .teardownEv => teardown cl
  | .ackReq mid s => ackMessage cl mid s
  | .heartbeat now => heartbeatTick now cl

/-- Run a sequence of events. -/
def crun (cl : Client) : List CEvent → Client
  | [] => cl
  | e :: es => crun (cstep cl e) es

/-- One failed connection attempt: the scheduled `connect` runs and the
resulting socket closes without ever opening. -/
def failCycle (cl : Client) : Client := onSocketClose (clientConnect cl)

/-! ## Concrete fixtures used by witnesses -/

def connUnauth : Conn := ⟨none⟩

def connUserA : Conn := ⟨some (.user "A" [] 0)⟩

def connBotX : Conn := ⟨some (.bot "bot" ["r9"] 0)⟩

def msgU1 : Message := ⟨"m1", "r1", "A", "hi", "text", 10, "user", none, 0⟩

def msgU2 : Message := ⟨"m2", "r1", "A", "again", "text", 20, "user", none, 0⟩

def msgB1 : Message := ⟨"m3", "r1", "bot", "ok", "text", 30, "bot", none, 0⟩

def userA : User := ⟨"A", "alice", none, "user", none, 1⟩

def storeB : Store :=
  ⟨[msgU1, msgU2, msgB1], [userA], [⟨"r1", "A"⟩, ⟨"r1", "bot"⟩], [⟨"s1", "A", 500⟩]⟩

def clientFresh : Client :=
  ⟨"sess", .disconnected, 0, none, false, none, false, false, [], [], []⟩

def clientQueued : Client :=
  ⟨"sess", .connecting, 2, some .connecting, false, none, true, false, ["r1"],
    [⟨"m1", "delivered"⟩, ⟨"m2", "read"⟩], []⟩

/-! ## Helper lemmas about the sort and dedup helpers -/

theorem mem_insertByKey {key : Message → Int} {m a : Message} {l : List Message} :
    a ∈ insertByKey key m l ↔ a = m ∨ a ∈ l := by
  induction l with
  | nil => simp [insertByKey]
  | cons x xs ih =>
      simp only [insertByKey]
      split
      · simp [or_left_comm, or_comm]
      · simp only [List.mem_cons, ih]
        tauto

theorem sorted_insertByKey {key : Message → Int} {m : Message} {l : List Message}
    (h : List.Pairwise (fun a b => key a ≤ key b) l) :
    List.Pairwise (fun a b => key a ≤ key b) (insertByKey key m l) := by
  induction l with
  | nil => simp [insertByKey]
  | cons x xs ih =>
      rcases List.pairwise_cons.mp h with ⟨h1, h2⟩
      simp only [insertByKey]
      split
      · rename_i hle
        refine List.pairwise_cons.mpr ⟨?_, h⟩
        intro b hb
        rcases List.mem_cons.mp hb with hbx | hbxs
        · exact hbx ▸ hle
        · exact le_trans hle (h1 b hbxs)
      · rename_i hgt
        refine List.pairwise_cons.mpr ⟨?_, ih h2⟩
        intro b hb
        rcases mem_insertByKey.mp hb with hbm | hbxs
        · exact hbm ▸ (le_of_not_le hgt)
        · exact h1 b hbxs

theorem sorted_sortByKey (key : Message → Int) (l : List Message) :
    List.Pairwise (fun a b => key a ≤ key b) (sortByKey key l) := by
  induction l with
  | nil => exact List.Pairwise.nil
  | cons x xs ih => exact sorted_insertByKey ih

theorem mem_sortByKey {key : Message → Int} {a : Message} {l : List Message} :
    a ∈ sortByKey key l ↔ a ∈ l := by
  induction l with
  | nil => simp [sortByKey]
  | cons x xs ih => simp [sortByKey, mem_insertByKey, ih]

theorem length_insertByKey (key : Message → Int) (m : Message) (l : List Message) :
    (insertByKey key m l).length = l.length + 1 := by
  induction l with
  | nil => rfl
  | cons x xs ih =>
      simp only [insertByKey]
      split
      · rfl
      · simp [ih]

theorem length_sortByKey (key : Message → Int) (l : List Message) :
    (sortByKey key l).length = l.length := by
  induction l with
  | nil => rfl
  | cons x xs ih => simp [sortByKey, length_insertByKey, ih]

theorem jsSetDedupAux_nodup (xs : List String) :
    ∀ seen, (jsSetDedupAux seen xs).Nodup ∧ ∀ a ∈ jsSetDedupAux seen xs, a ∉ seen := by
  induction xs with
  | nil => intro seen; simp [jsSetDedupAux]
  | cons x xs ih =>
      intro seen
      simp only [jsSetDedupAux]
      split
      · exact ⟨(ih seen).1, (ih seen).2⟩
      · rename_i hx
        refine ⟨List.nodup_cons.mpr ⟨?_, (ih (x :: seen)).1⟩, ?_⟩
        · intro hmem
          exact ((ih (x :: seen)).2 x hmem) (List.mem_cons_self x seen)
        · intro a ha
          rcases List.mem_cons.mp ha with rfl | ha2
          · exact hx
          · intro hseen
            exact ((ih (x :: seen)).2 a ha2) (List.mem_cons_of_mem x hseen)

theorem jsSetDedup_nodup (xs : List String) : (jsSetDedup xs).Nodup :=
  (jsSetDedupAux_nodup xs []).1

theorem lookupUser_id {st : Store} {uid : String} {u : User}
    (h : lookupUser st uid = some u) : u.id = uid := by
  unfold lookupUser at h
  cases hf : (st.users.filter (fun v => v.id = uid)) with
  | nil => rw [hf] at h; simp at h
  | cons v vs =>
      rw [hf] at h
      simp only [List.head?_cons, Option.some.injEq] at h
      have hv : v ∈ st.users.filter (fun v => v.id = uid) := by
        rw [hf]; exact List.mem_cons_self v vs
      have := (List.mem_filter.mp hv).2
      subst h
      exact of_decide_eq_true this

theorem map_id_resolveUsers (st : Store) (now : Int) (ids : List String) :
    (resolveUsers st now ids).map (·.id) =
      ids.filter (fun uid => uid = "bot" || (lookupUser st uid).isSome) := by
  induction ids with
  | nil => rfl
  | cons x xs ih =>
      simp only [resolveUsers, List.flatMap_cons, List.map_append, List.filter_cons]
      by_cases hx : x = "bot"
      · subst hx
        simpa [botUser] using ih
      · simp only [if_neg hx]
        cases hu : lookupUser st x with
        | none => simpa [hx, hu] using ih
        | some u =>
            have := lookupUser_id hu
            simpa [hx, hu, this] using ih

theorem nodup_resolveUsers_ids (st : Store) (now : Int) (ids : List String)
    (h : ids.Nodup) : ((resolveUsers st now ids).map (·.id)).Nodup := by
  rw [map_id_resolveUsers]
  exact h.filter _

/-! ## Claim theorems -/

/-- C1: Broadcast asymmetry.  When a `new_message` event is routed by
`broadcastToRoom` for room `roomId`: a connection authenticated as a user
receives the event verbatim exactly when its identity is a persistent member
of the room; a connection authenticated as a bot receives the transcoded
envelope `{type: "message", message: {room_id, user_id, content, timestamp}}`
whenever the message's origin is `user`, regardless of the bot's
`subscribedRooms` and of the room; and a bot-origin message is never
delivered to a bot connection.  Every connection of the snapshot gets its
delivery decision from `deliverTo`. -/
theorem C1_broadcast_asymmetry (st : Store) (roomId : String) (m : Message) (u : User)
    (c : Conn) (conns : List Conn) :
    (∀ uid jr lp, c.attach = some (.user uid jr lp) →
      deliverTo (memberIdsOf st roomId) roomId (.new_message m u) c =
        if uid ∈ memberIdsOf st roomId then some (.new_message m u) else none) ∧
    (∀ bid sr lp, c.attach = some (.bot bid sr lp) → m.source = "user" →
      deliverTo (memberIdsOf st roomId) roomId (.new_message m u) c =
        some (.pluginMessage roomId m.user_id m.content m.created_at)) ∧
    (∀ bid sr lp, c.attach = some (.bot bid sr lp) → m.source ≠ "user" →
      deliverTo (memberIdsOf st roomId) roomId (.new_message m u) c = none) ∧
    (c ∈ conns →
      deliverTo (memberIdsOf st roomId) roomId (.new_message m u) c ∈
        broadcastToRoom st conns roomId (.new_message m u)) := by
  refine ⟨?_, ?_, ?_, ?_⟩
  · intro uid jr lp h
    simp [deliverTo, h]
  · intro bid sr lp h hsrc
    simp [deliverTo, h, hsrc]
  · intro bid sr lp h hsrc
    simp [deliverTo, h, hsrc]
  · intro hmem
    exact List.mem_map_of_mem _ hmem

/-- C1 witness: in the concrete store, the member user receives the event
verbatim, the bot receives the transcoded envelope for a user-origin message
and nothing for a bot-origin message. -/
theorem C1_broadcast_asymmetry_witness :
    deliverTo (memberIdsOf storeB "r1") "r1" (.new_message msgU1 userA) connUserA =
      some (.new_message msgU1 userA) ∧
    deliverTo (memberIdsOf storeB "r1") "r1" (.new_message msgU1 userA) connBotX =
      some (.pluginMessage "r1" "A" "hi" 10) ∧
    deliverTo (memberIdsOf storeB "r1") "r1" (.new_message msgB1 (botUser 0)) connBotX = none := by
  refine ⟨?_, ?_, ?_⟩
  · have h := (C1_broadcast_asymmetry storeB "r1" msgU1 userA connUserA []).1 "A" [] 0 rfl
    rw [h]
    decide
  · exact (C1_broadcast_asymmetry storeB "r1" msgU1 userA connBotX []).2.1 "bot" ["r9"] 0 rfl rfl
  · exact (C1_broadcast_asymmetry storeB "r1" msgB1 (botUser 0) connBotX []).2.2.1 "bot" ["r9"] 0 rfl
      (by decide)

/-- C2 counterexample: the claim quantifies the liveness sweep over every
live connection, including ones that have not authenticated; but a
connection with no attachment is never closed by `sweepCloses`, at any time,
however stale it is. -/
theorem C2_counterexample_unauth_never_closed :
    ¬ ∃ now : Int, sweepCloses now connUnauth = true := by
  rintro ⟨now, h⟩
  simp [sweepCloses, connUnauth] at h

/-- C2 (amended): the monitor runs every 30 time-units with a 60 time-unit
timeout, and a sweep at time `now` closes a connection exactly when it is
authenticated (has an attachment) and `now - lastPing` exceeds the timeout;
a connection that has never authenticated is never closed by the sweep.
`lastPing` is refreshed by any received ping or heartbeat frame. -/
theorem C2_liveness_amended (now : Int) (c : Conn) (st : Store) (ts : Int) :
    HEARTBEAT_INTERVAL = 30000 ∧ HEARTBEAT_TIMEOUT = 60000 ∧
    (sweepCloses now c = true ↔
      ∃ a, c.attach = some a ∧ HEARTBEAT_TIMEOUT < now - a.lastPing) ∧
    (c.attach = none → sweepCloses now c = false) ∧
    (∀ a, c.attach = some a →
      ∃ a2, (handlePing now c st ts).conn.attach = some a2 ∧ a2.lastPing = now) ∧
    (∀ a, c.attach = some a →
      ∃ a2, (handleHeartbeat now c st).conn.attach = some a2 ∧ a2.lastPing = now) := by
  refine ⟨rfl, rfl, ?_, ?_, ?_, ?_⟩
  · cases hc : c.attach with
    | none => simp [sweepCloses, hc]
    | some a => simp [sweepCloses, hc]
  · intro hc
    simp [sweepCloses, hc]
  · intro a hc
    refine ⟨a.withLastPing now, ?_, ?_⟩
    · simp [handlePing, hc]
    · cases a <;> rfl
  · intro a hc
    refine ⟨a.withLastPing now, ?_, ?_⟩
    · simp [handleHeartbeat, hc]
    · cases a <;> rfl

/-- C2 witness: an authenticated connection whose last liveness signal is
60001 time-units old is closed by the sweep, and a heartbeat frame refreshes
`lastPing` to the current time. -/
theorem C2_liveness_amended_witness :
    sweepCloses 100000 connUserA = true ∧
    (∃ a2, (handleHeartbeat 100000 connUserA storeB).conn.attach = some a2 ∧
      a2.lastPing = 100000) := by
  refine ⟨?_, ?_⟩
  · exact (C2_liveness_amended 100000 connUserA storeB 0).2.2.1.mpr
      ⟨.user "A" [] 0, rfl, by decide⟩
  · exact (C2_liveness_amended 100000 connUserA storeB 0).2.2.2.2.2 (.user "A" [] 0) rfl

/-- C5: authentication error paths.  An auth frame whose session token does
not resolve to an unexpired session (`lookupValidSession` is `none` exactly
when every stored session with that id is expired) gets `auth_error`, leaves
the connection state untouched, and does not close the connection; an auth
frame carrying an API key different from the configured value gets
`auth_error` and the connection is forcibly closed. -/
theorem C5_auth_error_paths (envKey : Option String) (now : Int) (c : Conn) (st : Store)
    (sid key : String) :
    (lookupValidSession st now sid = none ↔
      ∀ s ∈ st.sessions, s.id = sid → s.expires_at ≤ now) ∧
    (lookupValidSession st now sid = none →
      handleUserAuth now c st sid = ⟨c, st, [.auth_error "Invalid session"], [], false⟩) ∧
    (key ≠ envKey.getD "default-bot-api-key" →
      handleBotAuth envKey now c st key = ⟨c, st, [.auth_error "Invalid API key"], [], true⟩) := by
  refine ⟨?_, ?_, ?_⟩
  · unfold lookupValidSession
    rw [List.head?_eq_none_iff, List.filter_eq_nil_iff]
    constructor
    · intro h s hs hid
      have h2 := h s hs
      simp only [Bool.and_eq_true, decide_eq_true_iff, not_and, not_lt] at h2
      exact h2 hid
    · intro h s hs
      simp only [Bool.not_eq_true, Bool.and_eq_false_iff, decide_eq_false_iff_not, not_lt]
      by_cases hid : s.id = sid
      · exact Or.inr (h s hs hid)
      · exact Or.inl hid
  · intro h
    simp [handleUserAuth, h]
  · intro h
    simp [handleBotAuth, h]

/-- C5 witness: in the concrete store the session `"s1"` is expired at time
1000, so user auth replies `auth_error` without closing, and a wrong bot API
key replies `auth_error` and closes the connection. -/
theorem C5_auth_error_paths_witness :
    handleUserAuth 1000 connUnauth storeB "s1" =
      ⟨connUnauth, storeB, [.auth_error "Invalid session"], [], false⟩ ∧
    handleBotAuth none 1000 connUnauth storeB "wrong-key" =
      ⟨connUnauth, storeB, [.auth_error "Invalid API key"], [], true⟩ := by
  refine ⟨?_, ?_⟩
  · exact (C5_auth_error_paths none 1000 connUnauth storeB "s1" "wrong-key").2.1 (by decide)
  · exact (C5_auth_error_paths none 1000 connUnauth storeB "s1" "wrong-key").2.2 (by decide)

/-- Pointwise acknowledgment update applied by `handleMessageAck`. -/
theorem ackUpdate_fixed {mid : String} (m : Message) :
    (fun m => if m.id = mid then { m with acknowledged := 1 } else m)
      ((fun m => if m.id = mid then { m with acknowledged := 1 } else m) m) =
    (fun m => if m.id = mid then { m with acknowledged := 1 } else m) m := by
  by_cases h : m.id = mid <;> simp [h]

/-- C8: `message_ack` is one-way and idempotent.  The handler replies with no
frame, performs no broadcast, never closes the connection and leaves it
untouched; acking an id absent from the store, or one whose messages are
already acknowledged, leaves the store unchanged; and acking the same id
twice yields the same store as acking it once. -/
theorem C8_ack_one_way_idempotent (c : Conn) (st : Store) (mid s s2 : String) :
    (handleMessageAck c st mid s).replies = [] ∧
    (handleMessageAck c st mid s).broadcasts = [] ∧
    (handleMessageAck c st mid s).closeConn = false ∧
    (handleMessageAck c st mid s).conn = c ∧
    ((∀ m ∈ st.messages, m.id ≠ mid) → (handleMessageAck c st mid s).store = st) ∧
    ((∀ m ∈ st.messages, m.id = mid → m.acknowledged = 1) →
      (handleMessageAck c st mid s).store = st) ∧
    (handleMessageAck c (handleMessageAck c st mid s).store mid s2).store =
      (handleMessageAck c st mid s).store := by
  refine ⟨rfl, rfl, rfl, rfl, ?_, ?_, ?_⟩
  · intro h
    cases st with
    | mk msgs users rms sess =>
        simp only [handleMessageAck]
        congr 1
        rw [List.map_congr_left, List.map_id]
        intro m hm
        simp [h m hm]
  · intro h
    cases st with
    | mk msgs users rms sess =>
        simp only [handleMessageAck]
        congr 1
        rw [List.map_congr_left, List.map_id]
        intro m hm
        by_cases hid : m.id = mid
        · have hack := h m hm hid
          cases m
          simp only at hack
          simp [hid, hack]
        · simp [hid]
  · simp only [handleMessageAck, List.map_map]
    congr 1
    apply List.map_congr_left
    intro m _
    exact ackUpdate_fixed m

/-- C8 witness: re-acking the concrete already-acknowledged store is a
no-op, and a nonexistent id leaves the store unchanged. -/
theorem C8_ack_one_way_idempotent_witness :
    (handleMessageAck connUserA storeB "nope" "read").store = storeB ∧
    (handleMessageAck connUserA
        (handleMessageAck connUserA storeB "m1" "delivered").store "m1" "read").store =
      (handleMessageAck connUserA storeB "m1" "delivered").store := by
  refine ⟨?_, ?_⟩
  · exact (C8_ack_one_way_idempotent connUserA storeB "nope" "read" "read").2.2.2.2.1
      (by decide)
  · exact (C8_ack_one_way_idempotent connUserA storeB "m1" "delivered" "read").2.2.2.2.2.2

/-- C10: the server applies `message_ack` with no authentication or
membership precondition.  The dispatcher routes a `message_ack` frame of any
connection — unauthenticated, user or bot — straight to `handleMessageAck`;
the resulting store does not depend on the connection's attachment or on the
`status` field, every stored message with the acked id has its
`acknowledged` flag set to 1, and no other row is created or removed. -/
theorem C10_ack_no_precondition (envKey : Option String) (now : Int) (genId : String)
    (c c2 : Conn) (st : Store) (mid s s2 : String) :
    dispatch envKey now genId c st (.message_ack mid s) = handleMessageAck c st mid s ∧
    (handleMessageAck c st mid s).store = (handleMessageAck c2 st mid s2).store ∧
    (handleMessageAck c st mid s).replies = [] ∧
    (∀ m ∈ (handleMessageAck c st mid s).store.messages, m.id = mid → m.acknowledged = 1) ∧
    (handleMessageAck c st mid s).store.messages.map (·.id) = st.messages.map (·.id) := by
  refine ⟨rfl, rfl, rfl, ?_, ?_⟩
  · intro m hm hid
    simp only [handleMessageAck, List.mem_map] at hm
    rcases hm with ⟨m0, _, hm0⟩
    by_cases h0 : m0.id = mid
    · rw [if_pos h0] at hm0
      rw [← hm0]
    · rw [if_neg h0] at hm0
      exact absurd (hm0 ▸ hid) h0
  · simp only [handleMessageAck, List.map_map]
    apply List.map_congr_left
    intro m _
    by_cases h0 : m.id = mid <;> simp [h0]

/-- C10 witness: an unauthenticated connection and a bot connection acking
`"m1"` with different statuses produce the same store, in which the `"m1"`
row is acknowledged. -/
theorem C10_ack_no_precondition_witness :
    (handleMessageAck connUnauth storeB "m1" "delivered").store =
      (handleMessageAck connBotX storeB "m1" "read").store ∧
    (∀ m ∈ (handleMessageAck connUnauth storeB "m1" "delivered").store.messages,
      m.id = "m1" → m.acknowledged = 1) := by
  refine ⟨?_, ?_⟩
  · exact (C10_ack_no_precondition none 0 "g" connUnauth connBotX storeB "m1"
      "delivered" "read").2.1
  · exact (C10_ack_no_precondition none 0 "g" connUnauth connBotX storeB "m1"
      "delivered" "read").2.2.2.1

/-- `ackMessage` only touches the trace or the pending queue. -/
theorem ackMessage_fields (cl : Client) (mid s : String) :
    (ackMessage cl mid s).reconnectAttempt = cl.reconnectAttempt ∧
    (ackMessage cl mid s).socket = cl.socket ∧
    (ackMessage cl mid s).connectionState = cl.connectionState ∧
    (ackMessage cl mid s).reconnectTimer = cl.reconnectTimer ∧
    (ackMessage cl mid s).isClosed = cl.isClosed ∧
    (ackMessage cl mid s).heartbeatOn = cl.heartbeatOn := by
  unfold ackMessage
  split <;> simp

theorem foldl_ackMessage_fields (q : List PendingAck) : ∀ cl : Client,
    (q.foldl (fun c a => ackMessage c a.messageId a.status) cl).reconnectAttempt =
      cl.reconnectAttempt ∧
    (q.foldl (fun c a => ackMessage c a.messageId a.status) cl).socket = cl.socket ∧
    (q.foldl (fun c a => ackMessage c a.messageId a.status) cl).reconnectTimer =
      cl.reconnectTimer := by
  induction q with
  | nil => intro cl; exact ⟨rfl, rfl, rfl⟩
  | cons a q ih =>
      intro cl
      have h1 := ackMessage_fields cl a.messageId a.status
      have h2 := ih (ackMessage cl a.messageId a.status)
      simp only [List.foldl_cons]
      exact ⟨h2.1.trans h1.1, h2.2.1.trans h1.2.1, h2.2.2.trans h1.2.2.2.1⟩

theorem flushAcks_fields (cl : Client) :
    (flushAcks cl).reconnectAttempt = cl.reconnectAttempt ∧
    (flushAcks cl).socket = cl.socket ∧
    (flushAcks cl).reconnectTimer = cl.reconnectTimer := by
  unfold flushAcks
  split
  · have h := foldl_ackMessage_fields cl.pendingAcks { cl with pendingAcks := [] }
    exact ⟨h.1, h.2.1, h.2.2⟩
  · exact ⟨rfl, rfl, rfl⟩

/-- The socket `open` listener resets the reconnect-attempt counter. -/
theorem onSocketOpen_reconnectAttempt (cl : Client) :
    (onSocketOpen cl).reconnectAttempt = 0 := by
  unfold onSocketOpen
  exact (flushAcks_fields _).1

/-- A single failed attempt increments the counter and schedules the
exponential-backoff delay; the teardown and reentrancy flags and the session
id survive the cycle. -/
theorem failCycle_step (cl : Client) (hClosed : cl.isClosed = false)
    (hConn : cl.isConnecting = false) (hSess : cl.sessionId ≠ "") :
    (failCycle cl).reconnectAttempt = cl.reconnectAttempt + 1 ∧
    (failCycle cl).reconnectTimer =
      some (min (RECONNECT_BASE_DELAY * 2 ^ cl.reconnectAttempt) MAX_RECONNECT_DELAY) ∧
    (failCycle cl).isClosed = false ∧
    (failCycle cl).isConnecting = false ∧
    (failCycle cl).sessionId = cl.sessionId := by
  simp [failCycle, clientConnect, onSocketClose, hClosed, hConn, hSess]

theorem failCycle_iter (s0 : Client) (hClosed : s0.isClosed = false)
    (hConn : s0.isConnecting = false) (hSess : s0.sessionId ≠ "")
    (hAtt : s0.reconnectAttempt = 0) :
    ∀ n, 1 ≤ n →
      (failCycle^[n] s0).reconnectAttempt = n ∧
      (failCycle^[n] s0).reconnectTimer =
        some (min (RECONNECT_BASE_DELAY * 2 ^ (n - 1)) MAX_RECONNECT_DELAY) ∧
      (failCycle^[n] s0).isClosed = false ∧
      (failCycle^[n] s0).isConnecting = false ∧
      (failCycle^[n] s0).sessionId = s0.sessionId := by
  intro n hn
  induction n with
  | zero => omega
  | succ k ih =>
      rcases Nat.eq_zero_or_pos k with hk | hk
      · subst hk
        have h := failCycle_step s0 hClosed hConn hSess
        rw [Function.iterate_one]
        rw [hAtt] at h
        exact ⟨h.1, h.2.1, h.2.2.1, h.2.2.2.1, h.2.2.2.2⟩
      · have hprev := ih hk
        have h := failCycle_step (failCycle^[k] s0) hprev.2.2.1 hprev.2.2.2.1
          (hprev.2.2.2.2 ▸ hSess)
        rw [Function.iterate_succ_apply']
        refine ⟨?_, ?_, h.2.2.1, h.2.2.2.1, h.2.2.2.2.trans hprev.2.2.2.2⟩
        · rw [h.1, hprev.1]
        · rw [h.2.1, hprev.1]
          have : k + 1 - 1 = k := rfl
          rw [this]

/-- C6: reconnect backoff.  Starting from a controller with a zeroed attempt
counter, after `n` consecutive failed attempts the scheduled delay is
`min(RECONNECT_BASE_DELAY * 2 ^ (n-1), MAX_RECONNECT_DELAY)` — the sequence
base, 2·base, 4·base, … capped at the maximum; each close increments the
counter and schedules `min(base * 2 ^ attempt, max)` for the counter value
before the increment; a socket `open` resets the counter to zero; and
neither a retry (`connect`) nor a teardown changes the counter. -/
theorem C6_reconnect_backoff (s0 : Client) (n : Nat)
    (hClosed : s0.isClosed = false) (hConn : s0.isConnecting = false)
    (hSess : s0.sessionId ≠ "") (hAtt : s0.reconnectAttempt = 0) (hn : 1 ≤ n) :
    (failCycle^[n] s0).reconnectAttempt = n ∧
    (failCycle^[n] s0).reconnectTimer =
      some (min (RECONNECT_BASE_DELAY * 2 ^ (n - 1)) MAX_RECONNECT_DELAY) ∧
    (∀ cl : Client, cl.isClosed = false →
      (onSocketClose cl).reconnectAttempt = cl.reconnectAttempt + 1 ∧
      (onSocketClose cl).reconnectTimer =
        some (min (RECONNECT_BASE_DELAY * 2 ^ cl.reconnectAttempt) MAX_RECONNECT_DELAY)) ∧
    (∀ cl : Client, cl.socket = some SocketStatus.connecting →
      (cstep cl CEvent.socketOpen).reconnectAttempt = 0) ∧
    (∀ cl : Client, (clientConnect cl).reconnectAttempt = cl.reconnectAttempt) ∧
    (∀ cl : Client, (teardown cl).reconnectAttempt = cl.reconnectAttempt) := by
  have hiter := failCycle_iter s0 hClosed hConn hSess hAtt n hn
  refine ⟨hiter.1, hiter.2.1, ?_, ?_, ?_, ?_⟩
  · intro cl h
    simp [onSocketClose, h]
  · intro cl h
    simp only [cstep, h, if_pos]
    exact onSocketOpen_reconnectAttempt cl
  · intro cl
    unfold clientConnect
    split
    · rfl
    · split
      · rfl
      · split
        · rfl
        · rfl
  · intro cl
    rfl

/-- C6 witness: three consecutive failures from a fresh controller leave the
counter at 3 with a scheduled delay of `min(3000·2², 30000) = 12000`. -/
theorem C6_reconnect_backoff_witness :
    (failCycle^[3] clientFresh).reconnectAttempt = 3 ∧
    (failCycle^[3] clientFresh).reconnectTimer =
      some (min (RECONNECT_BASE_DELAY * 2 ^ 2) MAX_RECONNECT_DELAY) := by
  have h := C6_reconnect_backoff clientFresh 3 rfl rfl (by decide) rfl (by decide)
  exact ⟨h.1, h.2.1⟩

/-- On a torn-down controller every event is inert: the teardown flag, the
absence of a socket, of a reconnect timer and of a heartbeat are preserved
and no frame is sent. -/
theorem cstep_torn (s : Client) (e : CEvent)
    (h1 : s.isClosed = true) (h2 : s.socket = none)
    (h3 : s.reconnectTimer = none) (h4 : s.heartbeatOn = false) :
    (cstep s e).isClosed = true ∧ (cstep s e).socket = none ∧
    (cstep s e).reconnectTimer = none ∧ (cstep s e).heartbeatOn = false ∧
    (cstep s e).sent = s.sent := by
  cases e with
  | connectReq =>
      simp only [cstep]
      unfold clientConnect
      rw [h1]
      split_ifs <;> first
        | exact ⟨h1, h2, h3, h4, rfl⟩
        | simp_all
  | socketOpen =>
      simp only [cstep]
      rw [if_neg (by rw [h2]; simp)]
      exact ⟨h1, h2, h3, h4, rfl⟩
  | socketClose =>
      simp only [cstep]
      unfold onSocketClose
      rw [if_pos (by simpa using h1)]
      exact ⟨by simpa using h1, rfl, by simpa using h3, rfl, rfl⟩
  | teardownEv =>
      exact ⟨rfl, rfl, rfl, rfl, rfl⟩
  | ackReq mid st =>
      simp only [cstep]
      unfold ackMessage
      rw [if_neg (by rw [h2]; simp)]
      exact ⟨h1, h2, h3, h4, rfl⟩
  | heartbeat now =>
      simp only [cstep]
      unfold heartbeatTick
      rw [if_neg (by rw [h4]; simp)]
      exact ⟨h1, h2, h3, h4, rfl⟩

theorem crun_torn (evs : List CEvent) : ∀ s : Client,
    s.isClosed = true → s.socket = none → s.reconnectTimer = none → s.heartbeatOn = false →
    (crun s evs).isClosed = true ∧ (crun s evs).socket = none ∧
    (crun s evs).reconnectTimer = none ∧ (crun s evs).heartbeatOn = false ∧
    (crun s evs).sent = s.sent := by
  induction evs with
  | nil => intro s h1 h2 h3 h4; exact ⟨h1, h2, h3, h4, rfl⟩
  | cons e es ih =>
      intro s h1 h2 h3 h4
      have hstep := cstep_torn s e h1 h2 h3 h4
      have hrest := ih (cstep s e) hstep.1 hstep.2.1 hstep.2.2.1 hstep.2.2.2.1
      exact ⟨hrest.1, hrest.2.1, hrest.2.2.1, hrest.2.2.2.1,
        hrest.2.2.2.2.trans hstep.2.2.2.2⟩

/-- C7: controller teardown.  Tearing the controller down synchronously
cancels the pending reconnect timer and the heartbeat timer and closes the
socket; afterwards, under any sequence of events — including the `close`
event of the torn-down socket — no socket ever exists again, no reconnect is
ever scheduled, the heartbeat stays off, and no frame is ever sent. -/
theorem C7_teardown_inert (cl : Client) (evs : List CEvent) :
    (teardown cl).reconnectTimer = none ∧
    (teardown cl).heartbeatOn = false ∧
    (teardown cl).socket = none ∧
    (crun (teardown cl) evs).isClosed = true ∧
    (crun (teardown cl) evs).socket = none ∧
    (crun (teardown cl) evs).reconnectTimer = none ∧
    (crun (teardown cl) evs).heartbeatOn = false ∧
    (crun (teardown cl) evs).sent = cl.sent := by
  have h := crun_torn evs (teardown cl) rfl rfl rfl rfl
  exact ⟨rfl, rfl, rfl, h.1, h.2.1, h.2.2.1, h.2.2.2.1, h.2.2.2.2⟩

/-- Replaying a queue through `ackMessage` over an open socket appends
exactly the queued `message_ack` frames, in order. -/
theorem foldl_ackMessage_open (q : List PendingAck) : ∀ cl : Client,
    cl.socket = some SocketStatus.opened →
    (q.foldl (fun c a => ackMessage c a.messageId a.status) cl).sent =
      cl.sent ++ q.map (fun a => CFrame.message_ack a.messageId a.status) ∧
    (q.foldl (fun c a => ackMessage c a.messageId a.status) cl).pendingAcks =
      cl.pendingAcks := by
  induction q with
  | nil => intro cl _; simp
  | cons a q ih =>
      intro cl h
      have hstep : ackMessage cl a.messageId a.status =
          { cl with sent := cl.sent ++ [CFrame.message_ack a.messageId a.status] } := by
        simp [ackMessage, h]
      have hrest := ih (ackMessage cl a.messageId a.status) ((ackMessage_fields cl _ _).2.1.trans h)
      simp only [List.foldl_cons, List.map_cons]
      rw [hrest.1, hrest.2, hstep]
      simp

/-- The pending-acknowledgment flush effect: once the state is `connected`
over an open socket, it empties the queue and sends its entries in order. -/
theorem flushAcks_spec (cl : Client) (hconnst : cl.connectionState = ConnState.connected)
    (hsock : cl.socket = some SocketStatus.opened) :
    (flushAcks cl).sent =
      cl.sent ++ cl.pendingAcks.map (fun a => CFrame.message_ack a.messageId a.status) ∧
    (flushAcks cl).pendingAcks = [] := by
  unfold flushAcks
  by_cases hq : cl.pendingAcks.isEmpty
  · rw [List.isEmpty_iff] at hq
    simp [hconnst, hq]
  · have hcond : (cl.connectionState = ConnState.connected && !cl.pendingAcks.isEmpty) = true := by
      simp [hconnst, hq]
    rw [if_pos hcond]
    have h := foldl_ackMessage_open cl.pendingAcks { cl with pendingAcks := [] } hsock
    exact ⟨h.1, h.2⟩

/-- C9: pending acknowledgments.  An acknowledgment requested while the
socket is not open is buffered at the tail of the pending queue and nothing
is sent; on the transition to `connected` (the socket `open` event) the
controller sends the auth frame, the room rejoins, and then every buffered
acknowledgment exactly once in the original enqueue order, leaving the
queue empty. -/
theorem C9_pending_acks (cl : Client) (mid s : String) :
    (cl.socket ≠ some SocketStatus.opened →
      (ackMessage cl mid s).pendingAcks = cl.pendingAcks ++ [⟨mid, s⟩] ∧
      (ackMessage cl mid s).sent = cl.sent) ∧
    (cl.socket = some SocketStatus.connecting →
      (cstep cl CEvent.socketOpen).pendingAcks = [] ∧
      (cstep cl CEvent.socketOpen).sent =
        cl.sent ++ [CFrame.auth cl.sessionId]
          ++ cl.joinedRooms.map (fun r => CFrame.join_room r)
          ++ cl.pendingAcks.map (fun a => CFrame.message_ack a.messageId a.status)) := by
  constructor
  · intro h
    simp [ackMessage, h]
  · intro h
    simp only [cstep, h, if_pos]
    unfold onSocketOpen
    have hspec := flushAcks_spec
      { cl with
        isConnecting := false, connectionState := ConnState.connected,
        reconnectAttempt := 0, socket := some SocketStatus.opened,
        sent := (cl.sent ++ [CFrame.auth cl.sessionId])
          ++ cl.joinedRooms.map (fun r => CFrame.join_room r),
        heartbeatOn := true }
      rfl rfl
    exact ⟨hspec.2, by simpa using hspec.1⟩

/-- C9 witness: a controller with two buffered acknowledgments flushes both,
in order, right after the socket opens, leaving the queue empty. -/
theorem C9_pending_acks_witness :
    (cstep clientQueued CEvent.socketOpen).pendingAcks = [] ∧
    (cstep clientQueued CEvent.socketOpen).sent =
      clientQueued.sent ++ [CFrame.auth clientQueued.sessionId]
        ++ clientQueued.joinedRooms.map (fun r => CFrame.join_room r)
        ++ clientQueued.pendingAcks.map (fun a => CFrame.message_ack a.messageId a.status) :=
  (C9_pending_acks clientQueued "x" "read").2 rfl

theorem jsSetDedupAux_subset (xs : List String) :
    ∀ seen a, a ∈ jsSetDedupAux seen xs → a ∈ xs := by
  induction xs with
  | nil => simp [jsSetDedupAux]
  | cons x xs ih =>
      intro seen a h
      simp only [jsSetDedupAux] at h
      split at h
      · exact List.mem_cons_of_mem x (ih seen a h)
      · rcases List.mem_cons.mp h with rfl | h2
        · exact List.mem_cons_self a xs
        · exact List.mem_cons_of_mem x (ih _ a h2)

theorem mem_jsSetDedupAux (xs : List String) :
    ∀ seen a, a ∈ xs → a ∉ seen → a ∈ jsSetDedupAux seen xs := by
  induction xs with
  | nil => intro seen a h; simp at h
  | cons x xs ih =>
      intro seen a h hseen
      simp only [jsSetDedupAux]
      rcases List.mem_cons.mp h with rfl | h2
      · rw [if_neg hseen]
        exact List.mem_cons_self a _
      · split
        · exact ih seen a h2 hseen
        · by_cases hax : a = x
          · exact hax ▸ List.mem_cons_self x _
          · exact List.mem_cons_of_mem x (ih (x :: seen) a h2 (by simp [hax, hseen]))

/-- Every record produced by the author-resolution loop is either the static
bot record or the result of a store lookup at its own id. -/
theorem mem_resolveUsers {st : Store} {now : Int} {ids : List String} {u : User}
    (h : u ∈ resolveUsers st now ids) :
    u = botUser now ∨ lookupUser st u.id = some u := by
  unfold resolveUsers at h
  rcases List.mem_flatMap.mp h with ⟨uid, hid, hu⟩
  by_cases hb : uid = "bot"
  · left
    simpa [hb] using hu
  · right
    rw [if_neg hb] at hu
    cases hl : lookupUser st uid with
    | none => rw [hl] at hu; simp at hu
    | some v =>
        rw [hl] at hu
        simp only [Option.toList_some, List.mem_singleton] at hu
        subst hu
        rwa [lookupUser_id hl]

/-- Characterization of the messages selected by the sync WHERE clause. -/
theorem mem_syncFilter {st : Store} {uid : String} {lastId : Option String} {m : Message} :
    m ∈ syncFilter st uid lastId ↔
      m ∈ st.messages ∧ m.room_id ∈ roomsOfUser st uid ∧
      (∀ t, syncCutoff st lastId = some t → t < m.created_at) := by
  unfold syncFilter
  cases h : syncCutoff st lastId with
  | none =>
      simp only [List.mem_filter, decide_eq_true_iff]
      constructor
      · rintro ⟨hm, hr⟩
        exact ⟨hm, hr, fun t ht => by simp at ht⟩
      · rintro ⟨hm, hr, _⟩
        exact ⟨hm, hr⟩
  | some t =>
      simp only [List.mem_filter, Bool.and_eq_true, decide_eq_true_iff, Option.some.injEq]
      constructor
      · rintro ⟨hm, hr, ht⟩
        exact ⟨hm, hr, fun t2 ht2 => ht2 ▸ ht⟩
      · rintro ⟨hm, hr, ht⟩
        exact ⟨hm, hr, ht t rfl⟩

/-- C3: resync.  For a `sync_request` from an authenticated user connection
the reply is a single `sync_response`: at most 100 messages, ordered
ascending by `created_at`, all drawn from rooms the identity persistently
belongs to and strictly newer than the resolved cutoff; when at most 100
messages qualify, every qualifying message is included; an unresolvable
`last_message_id` behaves exactly like an absent one; and the reply carries
the distinct set of resolved authors. -/
theorem C3_sync_request (st : Store) (now : Int) (c : Conn) (uid : String)
    (jr : List String) (lp : Int) (lastId : Option String)
    (hc : c.attach = some (.user uid jr lp)) :
    ∃ msgs users,
      handleSyncRequest now c st lastId =
        ⟨c, st, [.sync_response msgs users], [], false⟩ ∧
      msgs.length ≤ 100 ∧
      List.Pairwise (fun a b => a.created_at ≤ b.created_at) msgs ∧
      (∀ m ∈ msgs, m ∈ st.messages ∧ m.room_id ∈ roomsOfUser st uid ∧
        (∀ t, syncCutoff st lastId = some t → t < m.created_at)) ∧
      ((syncFilter st uid lastId).length ≤ 100 →
        ∀ m ∈ st.messages, m.room_id ∈ roomsOfUser st uid →
          (∀ t, syncCutoff st lastId = some t → t < m.created_at) → m ∈ msgs) ∧
      (∀ mid, lastId = some mid → lookupMessage st mid = none →
        handleSyncRequest now c st lastId = handleSyncRequest now c st none) ∧
      users = resolveUsers st now (jsSetDedup (msgs.map (·.user_id))) ∧
      (users.map (·.id)).Nodup ∧
      (∀ u ∈ users, u = botUser now ∨ lookupUser st u.id = some u) := by
  refine ⟨syncQuery st uid lastId,
    resolveUsers st now (jsSetDedup ((syncQuery st uid lastId).map (·.user_id))),
    ?_, ?_, ?_, ?_, ?_, ?_, rfl, ?_, ?_⟩
  · simp [handleSyncRequest, hc]
  · unfold syncQuery
    exact (List.length_take_le 100 _).trans (le_refl 100)
  · exact List.Pairwise.sublist (List.take_sublist _ _) (sorted_sortByKey _ _)
  · intro m hm
    have hm2 : m ∈ syncFilter st uid lastId :=
      mem_sortByKey.mp ((List.take_sublist _ _).subset hm)
    exact mem_syncFilter.mp hm2
  · intro hlen m hm hr ht
    have hm2 : m ∈ syncFilter st uid lastId := mem_syncFilter.mpr ⟨hm, hr, ht⟩
    unfold syncQuery sqlSortAsc
    rw [List.take_of_length_le (by rw [length_sortByKey]; exact hlen)]
    exact mem_sortByKey.mpr hm2
  · intro mid hmid hnone
    subst hmid
    have hcut : syncCutoff st (some mid) = none := by
      show (if mid = "" then none
        else (lookupMessage st mid).map (fun m => m.created_at)) = none
      split
      · rfl
      · simp [hnone]
    have hq : syncQuery st uid (some mid) = syncQuery st uid none := by
      unfold syncQuery syncFilter
      rw [hcut]
      rfl
    simp only [handleSyncRequest, hc]
    rw [hq]
  · exact nodup_resolveUsers_ids st now _ (jsSetDedup_nodup _)
  · intro u hu
    exact mem_resolveUsers hu

/-- C3 witness: a sync request against the concrete store, filtered at the
message `"m1"`, gets a single well-formed `sync_response`. -/
theorem C3_sync_request_witness :
    ∃ msgs users,
      handleSyncRequest 0 connUserA storeB (some "m1") =
        ⟨connUserA, storeB, [.sync_response msgs users], [], false⟩ ∧
      msgs.length ≤ 100 ∧
      List.Pairwise (fun a b => a.created_at ≤ b.created_at) msgs := by
  obtain ⟨msgs, users, h1, h2, h3, _⟩ :=
    C3_sync_request storeB 0 connUserA "A" [] 0 (some "m1") rfl
  exact ⟨msgs, users, h1, h2, h3⟩

/-- C4: `join_room`.  A request from an authenticated user connection for a
room its identity is not a persistent member of is rejected with an `error`
frame and the attachment — in particular its local joined-rooms set — is
unchanged.  A successful join replies `room_joined` followed by
`room_messages` carrying at most 50 messages, ordered oldest-first, all
from the requested room, and such that every stored message of the room left
out is no newer than any delivered one; the accompanying users are the
distinct resolved authors, and the reserved `"bot"` id resolves to the
static bot record for any store whatsoever (no store lookup). -/
theorem C4_join_room (now : Int) (c : Conn) (st : Store) (roomId uid : String)
    (jr : List String) (lp : Int) (hc : c.attach = some (.user uid jr lp)) :
    (isMemberOf st roomId uid = false →
      handleJoinRoom now c st roomId =
        ⟨c, st, [.error "Not a member of this room"], [], false⟩) ∧
    (isMemberOf st roomId uid = true →
      ∃ msgs users,
        (handleJoinRoom now c st roomId).replies =
          [.room_joined roomId, .room_messages roomId msgs users] ∧
        msgs.length ≤ 50 ∧
        List.Pairwise (fun a b => a.created_at ≤ b.created_at) msgs ∧
        (∀ m ∈ msgs, m ∈ st.messages ∧ m.room_id = roomId) ∧
        (∀ m2 ∈ st.messages, m2.room_id = roomId → m2 ∉ msgs →
          ∀ m ∈ msgs, m2.created_at ≤ m.created_at) ∧
        users = resolveUsers st now (jsSetDedup ((recentMessages st roomId).map (·.user_id))) ∧
        (users.map (·.id)).Nodup ∧
        (∀ u ∈ users, u = botUser now ∨ lookupUser st u.id = some u) ∧
        (handleJoinRoom now c st roomId).conn.attach =
          some (.user uid (if roomId ∈ jr then jr else jr ++ [roomId]) lp)) ∧
    (∀ st2 ids now2, "bot" ∈ ids → botUser now2 ∈ resolveUsers st2 now2 ids) := by
  refine ⟨?_, ?_, ?_⟩
  · intro h
    simp [handleJoinRoom, hc, h]
  · intro h
    refine ⟨(recentMessages st roomId).reverse,
      resolveUsers st now (jsSetDedup ((recentMessages st roomId).map (·.user_id))),
      ?_, ?_, ?_, ?_, ?_, rfl, ?_, ?_, ?_⟩
    · simp [handleJoinRoom, hc, h]
    · rw [List.length_reverse]
      unfold recentMessages
      exact List.length_take_le 50 _
    · rw [List.pairwise_reverse]
      refine List.Pairwise.imp ?_
        (List.Pairwise.sublist (List.take_sublist _ _) (sorted_sortByKey _ _))
      intro a b hab
      simp only at hab
      omega
    · intro m hm
      rw [List.mem_reverse] at hm
      have hm2 : m ∈ st.messages.filter (fun m => decide (m.room_id = roomId)) :=
        mem_sortByKey.mp ((List.take_sublist _ _).subset hm)
      have := List.mem_filter.mp hm2
      exact ⟨this.1, of_decide_eq_true this.2⟩
    · intro m2 hm2 hr2 hnot m hm
      rw [List.mem_reverse] at hm hnot
      have hDsorted := sorted_sortByKey (fun m => -m.created_at)
        (st.messages.filter (fun m => decide (m.room_id = roomId)))
      have hm2D : m2 ∈ sortByKey (fun m => -m.created_at)
          (st.messages.filter (fun m => decide (m.room_id = roomId))) :=
        mem_sortByKey.mpr (List.mem_filter.mpr ⟨hm2, decide_eq_true (by exact hr2)⟩)
      rw [← List.take_append_drop 50 (sortByKey (fun m => -m.created_at)
        (st.messages.filter (fun m => decide (m.room_id = roomId))))] at hDsorted hm2D
      rcases List.mem_append.mp hm2D with hP | hS
      · exact absurd hP hnot
      · have hcross := (List.pairwise_append.mp hDsorted).2.2
        have := hcross m hm m2 hS
        simp only at this
        omega
    · exact nodup_resolveUsers_ids st now _ (jsSetDedup_nodup _)
    · intro u hu
      exact mem_resolveUsers hu
    · simp [handleJoinRoom, hc, h]
  · intro st2 ids now2 hbot
    unfold resolveUsers
    refine List.mem_flatMap.mpr ⟨"bot", hbot, ?_⟩
    simp

/-- C4 witness: in the concrete store user `"A"` is not a member of `"r2"`,
so the join is rejected without touching the attachment; the join of `"r1"`
succeeds with the room history oldest-first. -/
theorem C4_join_room_witness :
    handleJoinRoom 0 connUserA storeB "r2" =
      ⟨connUserA, storeB, [.error "Not a member of this room"], [], false⟩ ∧
    ∃ msgs users,
      (handleJoinRoom 0 connUserA storeB "r1").replies =
        [.room_joined "r1", .room_messages "r1" msgs users] ∧
      msgs.length ≤ 50 ∧
      List.Pairwise (fun a b => a.created_at ≤ b.created_at) msgs := by
  constructor
  · exact (C4_join_room 0 connUserA storeB "r2" "A" [] 0 rfl).1 (by decide)
  · obtain ⟨msgs, users, h1, h2, h3, _⟩ :=
      (C4_join_room 0 connUserA storeB "r1" "A" [] 0 rfl).2.1 (by decide)
    exact ⟨msgs, users, h1, h2, h3⟩

end ChatV2
